import Mathlib

/-!
Shallow embedding of the `rust_state_machine` runtime.

Sources embedded directly from `src/`:
  * `src/system.rs`    — system pallet (block number, per-account nonces)
  * `src/balances.rs`  — balances pallet (checked transfer)
  * `src/proof_of_existence.rs` — claims pallet (create/revoke claim)
  * `src/support.rs`   — `Block`/`Header`/`Extrinsic`/`DispatchResult` shapes
  * `src/main.rs`      — concrete type instantiations:
      `AccountId = String`, `Balance = u128`, `BlockNumber = u32`,
      `Nonce = u32`, `Content = &'static str`.

The numeric types (`Balance = u128`, `BlockNumber = u32`, `Nonce = u32`)
are embedded as plain `Nat`.
`u128` balances carry the explicit bound
`2 ^ 128` inside the checked arithmetic (`checked_sub` / `checked_add`),
exactly where the Rust code uses `CheckedSub` / `CheckedAdd`.  `u32` block
numbers and nonces are embedded as `Nat`; their only operation in the source
is `+ 1`, whose overflow the code does not check (a Rust panic, outside every
behaviour specified or claimed here).

Rust's `BTreeMap` is embedded as an association list with
update-in-place insert, remove and lookup; none of the embedded code
observes iteration order, so the ordering of the underlying list is
irrelevant to every statement below.

The call-routing layer (`dispatch`) and the block-execution engine
(`execute_block`) are generated by the `#[macros::runtime]` /
`#[macros::call]` procedural macros, whose crate is not part of the source
tree; those two definitions are modelled from the specification (sections
4.4 and 4.5) and are marked as such in their doc comments.
-/

deriving instance DecidableEq for Except

namespace StateMachine

/-- `types::AccountId = String` (src/main.rs). -/
abbrev AccountId := String

/-- `types::Content = &'static str` (src/main.rs). -/
abbrev Content := String

/-- `support::DispatchResult = Result<(), &'static str>` (src/support.rs). -/
abbrev DispatchResult := Except String Unit

/-- One more than `u128::MAX`: the bound used by `u128` checked addition. -/
def U128_MOD : Nat := 2 ^ 128

/-! ## `BTreeMap` as an association list -/

/-- `BTreeMap::get`. -/
def mapGet {α β : Type} [DecidableEq α] : List (α × β) → α → Option β
  | [], _ => none
  | (k0, v0) :: rest, k => if k = k0 then some v0 else mapGet rest k

/-- `BTreeMap::insert`: replace the value if the key is present, otherwise
add the binding. -/
def mapInsert {α β : Type} [DecidableEq α] : List (α × β) → α → β → List (α × β)
  | [], k, v => [(k, v)]
  | (k0, v0) :: rest, k, v =>
    if k = k0 then (k, v) :: rest else (k0, v0) :: mapInsert rest k v

/-- `BTreeMap::remove` (drops the binding for the key, if any). -/
def mapRemove {α β : Type} [DecidableEq α] : List (α × β) → α → List (α × β)
  | [], _ => []
  | (k0, v0) :: rest, k => if k = k0 then rest else (k0, v0) :: mapRemove rest k

/-- `BTreeMap::contains_key`. -/
def mapContains {α β : Type} [DecidableEq α] (m : List (α × β)) (k : α) : Bool :=
  (mapGet m k).isSome

/-! ## System pallet (src/system.rs) -/

/-- `system::Pallet`: the current block number and the per-account nonces. -/
structure SystemPallet where
  block_number : Nat
  nonce : List (AccountId × Nat)
deriving DecidableEq

/-- `system::Pallet::new()`. -/
def SystemPallet.new : SystemPallet := ⟨0, []⟩

/-- `system::Pallet::inc_block_number`: `self.block_number += 1`. -/
def inc_block_number (p : SystemPallet) : SystemPallet :=
  { p with block_number := p.block_number + 1 }

/-- The stored nonce of `who`, zero if absent — the read performed by
`inc_nonce` (`self.nonce.get(&who).unwrap_or(&zero)`). -/
def nonce_of (p : SystemPallet) (who : AccountId) : Nat :=
  (mapGet p.nonce who).getD 0

/-- `system::Pallet::inc_nonce`: read the nonce (zero if absent), add one,
store it back. -/
def inc_nonce (p : SystemPallet) (who : AccountId) : SystemPallet :=
  { p with nonce := mapInsert p.nonce who ((mapGet p.nonce who).getD 0 + 1) }

/-! ## Balances pallet (src/balances.rs) -/

/-- `balances::Pallet`: the per-account balances. -/
structure BalancesPallet where
  balances : List (AccountId × Nat)
deriving DecidableEq

/-- `balances::Pallet::new()`. -/
def BalancesPallet.new : BalancesPallet := ⟨[]⟩

/-- `balances::Pallet::set_balance`: unconditional insert. -/
def set_balance (p : BalancesPallet) (who : AccountId) (amount : Nat) :
    BalancesPallet :=
  { p with balances := mapInsert p.balances who amount }

/-- `balances::Pallet::balance`: stored balance, zero if absent. -/
def balance (p : BalancesPallet) (who : AccountId) : Nat :=
  (mapGet p.balances who).getD 0

/-- `u128::checked_sub`: `none` exactly when the subtraction would
underflow. -/
def checked_sub (a b : Nat) : Option Nat :=
  if a < b then none else some (a - b)

/-- `u128::checked_add`: `none` exactly when the sum exceeds `u128::MAX`. -/
def checked_add (a b : Nat) : Option Nat :=
  if a + b < U128_MOD then some (a + b) else none

/-- `balances::Pallet::transfer` (src/balances.rs lines 43–61): read both
balances, checked-subtract from the caller (`Err("Not enough funds.")` on
underflow), checked-add to the receiver (`Err("Overflow")` on overflow),
and only then insert the caller's new balance followed by the receiver's. -/
def transfer (p : BalancesPallet) (caller to_acct : AccountId) (amount : Nat) :
    DispatchResult × BalancesPallet :=
  let caller_balance := balance p caller
  let to_balance := balance p to_acct
  match checked_sub caller_balance amount with
  | none => (Except.error "Not enough funds.", p)
  | some new_caller_balance =>
    match checked_add to_balance amount with
    | none => (Except.error "Overflow", p)
    | some new_to_balance =>
      (Except.ok (),
        { p with balances :=
            mapInsert (mapInsert p.balances caller new_caller_balance) to_acct new_to_balance })

/-! ## Proof-of-existence pallet (src/proof_of_existence.rs) -/

/-- `proof_of_existence::Pallet`: content mapped to its owner. -/
structure PoePallet where
  claims : List (Content × AccountId)
deriving DecidableEq

/-- `proof_of_existence::Pallet::new()`. -/
def PoePallet.new : PoePallet := ⟨[]⟩

/-- `proof_of_existence::Pallet::get_claim`. -/
def get_claim (p : PoePallet) (claim : Content) : Option AccountId :=
  mapGet p.claims claim

/-- `proof_of_existence::Pallet::create_claim` (src/proof_of_existence.rs
lines 39–45): error if the content is already claimed, otherwise insert
`claim -> caller`. -/
def create_claim (p : PoePallet) (caller : AccountId) (claim : Content) :
    DispatchResult × PoePallet :=
  if mapContains p.claims claim then
    (Except.error "this content is already claimed", p)
  else
    (Except.ok (), { p with claims := mapInsert p.claims claim caller })

/-- `proof_of_existence::Pallet::revoke_claim` (src/proof_of_existence.rs
lines 50–57): error if the claim is absent, error if the caller is not the
stored owner, otherwise remove the entry. -/
def revoke_claim (p : PoePallet) (caller : AccountId) (claim : Content) :
    DispatchResult × PoePallet :=
  match get_claim p claim with
  | none => (Except.error "claim does not exist", p)
  | some owner =>
    if caller ≠ owner then
      (Except.error "this content is owned by someone else", p)
    else
      (Except.ok (), { p with claims := mapRemove p.claims claim })

/-! ## Runtime, calls, routing and the block engine -/

/-- `balances::Call` (generated from the `#[macros::call]` block of
src/balances.rs): one variant per dispatchable call, carrying its
arguments minus the caller. -/
inductive BalancesCall where
  | transfer (to_acct : AccountId) (amount : Nat)
deriving DecidableEq

/-- `proof_of_existence::Call` (generated from the `#[macros::call]` block
of src/proof_of_existence.rs). -/
inductive PoeCall where
  | create_claim (claim : Content)
  | revoke_claim (claim : Content)
deriving DecidableEq

/-- `RuntimeCall` (generated by `#[macros::runtime]` on src/main.rs's
`Runtime`): the closed tagged union over all pallets' calls. -/
inductive RuntimeCall where
  | balances (call : BalancesCall)
  | proof_of_existence (call : PoeCall)
deriving DecidableEq

/-- `Runtime` (src/main.rs): one instance of every pallet. -/
structure Runtime where
  system : SystemPallet
  balances : BalancesPallet
  proof_of_existence : PoePallet
deriving DecidableEq

/-- `Runtime::new()`: every pallet starts empty. -/
def Runtime.new : Runtime := ⟨SystemPallet.new, BalancesPallet.new, PoePallet.new⟩

/-- `support::Extrinsic` at the concrete types of src/main.rs. -/
structure Extrinsic where
  caller : AccountId
  call : RuntimeCall
deriving DecidableEq

/-- `support::Header` at the concrete types of src/main.rs. -/
structure Header where
  block_number : Nat
deriving DecidableEq

/-- `support::Block` at the concrete types of src/main.rs. -/
structure Block where
  header : Header
  extrinsics : List Extrinsic
deriving DecidableEq

/-- Modelled from the spec: `dispatch` is generated by the
`#[macros::runtime]` macro, whose crate is not in the source tree.  Spec
§4.4: exhaustively match on the call's variant, forward to the matching
pallet method passing the caller and the variant's arguments, return the
pallet's result unchanged; the router holds no state and performs no
bookkeeping. -/
def dispatch (r : Runtime) (caller : AccountId) (call : RuntimeCall) :
    DispatchResult × Runtime :=
  match call with
  | .balances (.transfer to_acct amount) =>
    let (res, b) := transfer r.balances caller to_acct amount
    (res, { r with balances := b })
  | .proof_of_existence (.create_claim claim) =>
    let (res, q) := create_claim r.proof_of_existence caller claim
    (res, { r with proof_of_existence := q })
  | .proof_of_existence (.revoke_claim claim) =>
    let (res, q) := revoke_claim r.proof_of_existence caller claim
    (res, { r with proof_of_existence := q })

/-- The block-level failure (spec §7 `BlockExecutionError`): either the
declared height was not the engine's counter plus one, or the extrinsic at
the given index failed with the given reason. -/
inductive BlockError where
  | height_mismatch (expected declared : Nat)
  | extrinsic_failed (block_number : Nat) (extrinsic_index : Nat) (reason : String)
deriving DecidableEq

/-- One step of the engine's per-extrinsic loop (spec §4.5 steps 3a–3b):
increment the caller's nonce unconditionally, then route the call. -/
def apply_extrinsic (r : Runtime) (e : Extrinsic) : DispatchResult × Runtime :=
  dispatch { r with system := inc_nonce r.system e.caller } e.caller e.call

/-- Modelled from the spec: the engine's extrinsic loop inside
`execute_block` (macro-generated, not in the source tree).  Spec §4.5
step 3: process extrinsics in order; on the first dispatch error stop and
return a failure carrying the block number, the failing index and the
reason; on success continue. -/
def execute_extrinsics (bn : Nat) :
    Runtime → Nat → List Extrinsic → Except BlockError Unit × Runtime
  | r, _, [] => (Except.ok (), r)
  | r, i, e :: rest =>
    match apply_extrinsic r e with
    | (Except.error msg, r2) => (Except.error (.extrinsic_failed bn i msg), r2)
    | (Except.ok _, r2) => execute_extrinsics bn r2 (i + 1) rest

/-- Modelled from the spec: `execute_block` (macro-generated, not in the
source tree).  Spec §4.5: reject a declared height that is not the
engine's counter plus one as a caller error; otherwise increment the block
counter and run the extrinsic loop. -/
def execute_block (r : Runtime) (b : Block) : Except BlockError Unit × Runtime :=
  if b.header.block_number = r.system.block_number + 1 then
    execute_extrinsics b.header.block_number
      { r with system := inc_block_number r.system } 0 b.extrinsics
  else
    (Except.error (.height_mismatch (r.system.block_number + 1) b.header.block_number), r)

/-- Replay of a sequence of blocks, stopping at the first failing block —
the embedder policy of src/main.rs (`.expect("invalid block")` aborts on
the first failure) and spec §7. -/
def replay : Runtime → List Block → Except BlockError Unit × Runtime
  | r, [] => (Except.ok (), r)
  | r, b :: bs =>
    match execute_block r b with
    | (Except.ok _, r1) => replay r1 bs
    | (Except.error e, r1) => (Except.error e, r1)

/-! ## Observers used to state the nonce claim -/

/-- The extrinsics of a block whose dispatch the engine actually attempts
(successful or failed): all of them up to and including the first failing
one.  Mirrors `execute_extrinsics`; used only to state properties. -/
def dispatched_in_list : Runtime → List Extrinsic → List Extrinsic
  | _, [] => []
  | r, e :: rest =>
    match apply_extrinsic r e with
    | (Except.error _, _) => [e]
    | (Except.ok _, r2) => e :: dispatched_in_list r2 rest

/-- The extrinsics of one block whose dispatch the engine attempts: none at
all when the declared height is rejected. -/
def dispatched_in_block (r : Runtime) (b : Block) : List Extrinsic :=
  if b.header.block_number = r.system.block_number + 1 then
    dispatched_in_list { r with system := inc_block_number r.system } b.extrinsics
  else []

/-- The extrinsics whose dispatch the engine attempts over a whole replay. -/
def dispatched_in_replay : Runtime → List Block → List Extrinsic
  | _, [] => []
  | r, b :: bs =>
    match execute_block r b with
    | (Except.ok _, r1) => dispatched_in_block r b ++ dispatched_in_replay r1 bs
    | (Except.error _, _) => dispatched_in_block r b

/-- How many of the given extrinsics have `a` as their caller. -/
def count_caller (a : AccountId) (es : List Extrinsic) : Nat :=
  (es.filter (fun e => e.caller = a)).length

/-- All extrinsics of a sequence of blocks, in order. -/
def all_extrinsics (bs : List Block) : List Extrinsic :=
  (bs.map Block.extrinsics).flatten

/-! ## Association-list lemmas -/

/-- Lookup after insert: the inserted key reads back the inserted value,
every other key is unaffected. -/
theorem mapGet_mapInsert {α β : Type} [DecidableEq α] (m : List (α × β)) (k q : α) (v : β) :
    mapGet (mapInsert m k v) q = if q = k then some v else mapGet m q := by
  induction m with
  | nil =>
    by_cases h : q = k <;> simp [mapInsert, mapGet, h]
  | cons kv rest ih =>
    obtain ⟨k0, v0⟩ := kv
    by_cases h1 : k = k0
    · subst h1
      by_cases h2 : q = k <;> simp [mapInsert, mapGet, h2]
    · by_cases h2 : q = k0
      · subst h2
        have h3 : ¬ q = k := fun h => h1 (h ▸ rfl)
        simp [mapInsert, mapGet, h1, h3]
      · by_cases h3 : q = k
        · subst h3
          simp [mapInsert, mapGet, h1, h2, ih]
        · simp [mapInsert, mapGet, h1, h2, h3, ih]

/-- `transfer` as a three-way case split on its two checks, in check
order: underflow first, then overflow, then the two writes. -/
theorem transfer_eq (p : BalancesPallet) (c t : AccountId) (a : Nat) :
    transfer p c t a =
      if balance p c < a then (Except.error "Not enough funds.", p)
      else if balance p t + a < U128_MOD then
        (Except.ok (),
          { p with balances :=
              mapInsert (mapInsert p.balances c (balance p c - a)) t (balance p t + a) })
      else (Except.error "Overflow", p) := by
  by_cases h1 : balance p c < a
  · simp [transfer, checked_sub, h1]
  · by_cases h2 : balance p t + a < U128_MOD <;>
      simp [transfer, checked_sub, checked_add, h1, h2]

/-- A failing `transfer` returns the pallet state unchanged. -/
theorem transfer_error_state (p : BalancesPallet) (c t : AccountId) (a : Nat)
    (msg : String) (h : (transfer p c t a).1 = Except.error msg) :
    (transfer p c t a).2 = p := by
  rw [transfer_eq] at h ⊢
  split_ifs at h ⊢ <;> simp_all

/-! ## Claim C2 -/

/-- C2: a `transfer` that returns an error (from either check) leaves the
balances map — in particular both the caller's and the receiver's stored
balances — exactly as before the call. -/
theorem transfer_error_atomic (p : BalancesPallet) (c t : AccountId) (a : Nat)
    (msg : String) (h : (transfer p c t a).1 = Except.error msg) :
    (transfer p c t a).2.balances = p.balances ∧
    balance (transfer p c t a).2 c = balance p c ∧
    balance (transfer p c t a).2 t = balance p t := by
  have hs := transfer_error_state p c t a msg h
  rw [hs]
  exact ⟨rfl, rfl, rfl⟩

/-- C2 witness: a concrete underfunded transfer errors and leaves the map
untouched. -/
theorem transfer_error_atomic_witness :
    (transfer ⟨[("alice", 10)]⟩ "alice" "bob" 50).1 = Except.error "Not enough funds." ∧
    (transfer ⟨[("alice", 10)]⟩ "alice" "bob" 50).2.balances = [("alice", 10)] :=
  ⟨by decide,
    (transfer_error_atomic ⟨[("alice", 10)]⟩ "alice" "bob" 50 "Not enough funds."
      (by decide)).1⟩

/-! ## Claim C3 -/

/-- C3: a successful `transfer` between distinct accounts conserves the
sum of the two balances, debits the caller by exactly `amount` and credits
the receiver by exactly `amount`. -/
theorem transfer_ok_conservation (p : BalancesPallet) (c t : AccountId) (a : Nat)
    (hne : c ≠ t) (h : (transfer p c t a).1 = Except.ok ()) :
    balance (transfer p c t a).2 c + balance (transfer p c t a).2 t
        = balance p c + balance p t ∧
    a ≤ balance p c ∧
    balance (transfer p c t a).2 c = balance p c - a ∧
    balance (transfer p c t a).2 t = balance p t + a := by
  rw [transfer_eq] at h ⊢
  split_ifs at h ⊢ with h1 h2
  all_goals simp_all [balance, mapGet_mapInsert, hne]
  all_goals omega

/-- C3 witness: the successful transfer of scenario 1 of the spec. -/
theorem transfer_ok_conservation_witness :
    balance (transfer ⟨[("alice", 100)]⟩ "alice" "bob" 51).2 "alice"
        + balance (transfer ⟨[("alice", 100)]⟩ "alice" "bob" 51).2 "bob"
      = balance ⟨[("alice", 100)]⟩ "alice" + balance ⟨[("alice", 100)]⟩ "bob" :=
  (transfer_ok_conservation ⟨[("alice", 100)]⟩ "alice" "bob" 51 (by decide) (by decide)).1

/-! ## Claim C5 -/

/-- C5: `transfer` fails with `InsufficientFunds` (`"Not enough funds."`)
exactly when the caller's balance is below `amount`, and fails with
`Overflow` exactly when the subtraction check passes but the receiver's
balance plus `amount` is not representable in `u128`; the two iffs
together show the underflow check is applied first. -/
theorem transfer_error_conditions (p : BalancesPallet) (c t : AccountId) (a : Nat) :
    ((transfer p c t a).1 = Except.error "Not enough funds." ↔ balance p c < a) ∧
    ((transfer p c t a).1 = Except.error "Overflow" ↔
        a ≤ balance p c ∧ U128_MOD ≤ balance p t + a) := by
  rw [transfer_eq]
  split_ifs with h1 h2 <;> simp_all

/-! ## Claim C9 -/

/-- C9: a self-transfer whose two checks pass succeeds and leaves the
account with its prior balance plus `amount`: the receiver-side insert
overwrites the caller-side insert, so value is created rather than the
call being a no-op. -/
theorem transfer_self_creates_value (p : BalancesPallet) (a : AccountId) (m : Nat)
    (h1 : m ≤ balance p a) (h2 : balance p a + m < U128_MOD) :
    (transfer p a a m).1 = Except.ok () ∧
    balance (transfer p a a m).2 a = balance p a + m := by
  rw [transfer_eq]
  have h1' : ¬ balance p a < m := Nat.not_lt.mpr h1
  rw [if_neg h1', if_pos h2]
  simp [balance, mapGet_mapInsert]

/-- C9 witness: a self-transfer of 5 on a balance of 10 yields 15. -/
theorem transfer_self_creates_value_witness :
    (transfer ⟨[("alice", 10)]⟩ "alice" "alice" 5).1 = Except.ok () ∧
    balance (transfer ⟨[("alice", 10)]⟩ "alice" "alice" 5).2 "alice"
      = balance ⟨[("alice", 10)]⟩ "alice" + 5 :=
  transfer_self_creates_value ⟨[("alice", 10)]⟩ "alice" 5 (by decide) (by decide)

/-! ## Claim C6 -/

/-- C6: `create_claim` fails with `AlreadyClaimed` (`"this content is
already claimed"`) exactly when the content is already a key of the claims
map, leaving the map unchanged; otherwise it succeeds and inserts
`content -> caller`.  Consequently a second `create_claim` on the same
content, with no intervening successful revoke, always fails. -/
theorem create_claim_spec (p : PoePallet) (caller : AccountId) (content : Content) :
    (mapContains p.claims content = true →
        create_claim p caller content
          = (Except.error "this content is already claimed", p)) ∧
    (mapContains p.claims content = false →
        (create_claim p caller content).1 = Except.ok () ∧
        (create_claim p caller content).2.claims = mapInsert p.claims content caller ∧
        get_claim (create_claim p caller content).2 content = some caller) ∧
    ((create_claim p caller content).1 = Except.ok () →
      ∀ c2 : AccountId,
        (create_claim (create_claim p caller content).2 c2 content).1
          = Except.error "this content is already claimed") := by
  rcases hgc : mapGet p.claims content with _ | owner
  · have h : mapContains p.claims content = false := by simp [mapContains, hgc]
    have hnew : create_claim p caller content
        = (Except.ok (), { p with claims := mapInsert p.claims content caller }) := by
      simp [create_claim, h]
    refine ⟨fun ht => by rw [h] at ht; simp at ht,
      fun _ => ⟨by rw [hnew], by rw [hnew], ?_⟩, fun _ c2 => ?_⟩
    · rw [hnew]
      simp [get_claim, mapGet_mapInsert]
    · rw [hnew]
      have hnow : mapContains (mapInsert p.claims content caller) content = true := by
        simp [mapContains, mapGet_mapInsert]
      simp [create_claim, hnow]
  · have h : mapContains p.claims content = true := by simp [mapContains, hgc]
    have heq : create_claim p caller content
        = (Except.error "this content is already claimed", p) := by
      simp [create_claim, h]
    refine ⟨fun _ => heq, fun hf => by rw [h] at hf; simp at hf, fun hok => ?_⟩
    rw [heq] at hok
    simp at hok

/-- C6 witness: fresh state — the first claim succeeds, a competing second
claim on the same content fails. -/
theorem create_claim_spec_witness :
    (create_claim ⟨[]⟩ "alice" "hello").1 = Except.ok () ∧
    (create_claim (create_claim ⟨[]⟩ "alice" "hello").2 "bob" "hello").1
      = Except.error "this content is already claimed" :=
  ⟨((create_claim_spec ⟨[]⟩ "alice" "hello").2.1 (by decide)).1,
    (create_claim_spec ⟨[]⟩ "alice" "hello").2.2
      (((create_claim_spec ⟨[]⟩ "alice" "hello").2.1 (by decide)).1) "bob"⟩

/-! ## Claim C7 -/

/-- C7: `revoke_claim` fails with `ClaimNotFound` (`"claim does not
exist"`) when the content is absent, fails with `NotOwner` (`"this content
is owned by someone else"`) when the stored owner differs from the caller
(value equality), succeeds and removes the entry when the caller is the
stored owner, and never succeeds otherwise. -/
theorem revoke_claim_spec (p : PoePallet) (caller : AccountId) (content : Content) :
    (get_claim p content = none →
        revoke_claim p caller content = (Except.error "claim does not exist", p)) ∧
    (∀ owner : AccountId, get_claim p content = some owner → caller ≠ owner →
        revoke_claim p caller content
          = (Except.error "this content is owned by someone else", p)) ∧
    (get_claim p content = some caller →
        (revoke_claim p caller content).1 = Except.ok () ∧
        (revoke_claim p caller content).2.claims = mapRemove p.claims content) ∧
    ((revoke_claim p caller content).1 = Except.ok () →
        get_claim p content = some caller) := by
  rcases hg : get_claim p content with _ | owner
  · have herr : revoke_claim p caller content
        = (Except.error "claim does not exist", p) := by
      simp [revoke_claim, hg]
    refine ⟨fun _ => herr, fun o hs _ => Option.noConfusion hs,
      fun hs => Option.noConfusion hs, fun hok => ?_⟩
    rw [herr] at hok
    simp at hok
  · by_cases hc : caller = owner
    · subst hc
      refine ⟨fun hn => Option.noConfusion hn,
        fun o hs hne => absurd (Option.some.inj hs) hne,
        fun _ => by simp [revoke_claim, hg], fun _ => rfl⟩
    · refine ⟨fun hn => Option.noConfusion hn, fun o hs hne => ?_,
        fun hs => absurd (Option.some.inj hs).symm hc, fun hok => ?_⟩
      · simp [revoke_claim, hg, hc]
      · simp [revoke_claim, hg, hc] at hok

/-- C7 witness: with `"hello"` owned by alice, bob's revoke fails as
`NotOwner` and alice's succeeds. -/
theorem revoke_claim_spec_witness :
    revoke_claim ⟨[("hello", "alice")]⟩ "bob" "hello"
        = (Except.error "this content is owned by someone else", ⟨[("hello", "alice")]⟩) ∧
    (revoke_claim ⟨[("hello", "alice")]⟩ "alice" "hello").1 = Except.ok () :=
  ⟨(revoke_claim_spec ⟨[("hello", "alice")]⟩ "bob" "hello").2.1 "alice"
      (by decide) (by decide),
    ((revoke_claim_spec ⟨[("hello", "alice")]⟩ "alice" "hello").2.2.1 (by decide)).1⟩

/-! ## Frame lemmas for the router -/

/-- A failing `create_claim` returns the pallet state unchanged. -/
theorem create_claim_error_state (p : PoePallet) (caller : AccountId) (content : Content)
    (msg : String) (h : (create_claim p caller content).1 = Except.error msg) :
    (create_claim p caller content).2 = p := by
  by_cases hc : mapContains p.claims content <;> simp [create_claim, hc] at h ⊢

/-- A failing `revoke_claim` returns the pallet state unchanged. -/
theorem revoke_claim_error_state (p : PoePallet) (caller : AccountId) (content : Content)
    (msg : String) (h : (revoke_claim p caller content).1 = Except.error msg) :
    (revoke_claim p caller content).2 = p := by
  rcases hg : get_claim p content with _ | owner
  · simp [revoke_claim, hg]
  · by_cases hc : caller = owner <;> simp [revoke_claim, hg, hc] at h ⊢

/-- Routing never touches the system pallet: whatever the call and its
outcome, `dispatch` leaves block number and nonces unchanged. -/
theorem dispatch_system_frame (r : Runtime) (c : AccountId) (call : RuntimeCall) :
    (dispatch r c call).2.system = r.system := by
  rcases call with ⟨ta, am⟩ | pc
  · rcases htr : transfer r.balances c ta am with ⟨res, b⟩
    simp [dispatch, htr]
  · rcases pc with cl | cl
    · rcases hcc : create_claim r.proof_of_existence c cl with ⟨res, q⟩
      simp [dispatch, hcc]
    · rcases hrc : revoke_claim r.proof_of_existence c cl with ⟨res, q⟩
      simp [dispatch, hrc]

/-- A failing `dispatch` leaves the whole runtime state unchanged. -/
theorem dispatch_error_frame (r : Runtime) (c : AccountId) (call : RuntimeCall)
    (msg : String) (h : (dispatch r c call).1 = Except.error msg) :
    (dispatch r c call).2 = r := by
  rcases call with ⟨ta, am⟩ | pc
  · rcases htr : transfer r.balances c ta am with ⟨res, b⟩
    have hb : b = r.balances := by
      have := transfer_error_state r.balances c ta am msg
      rw [htr] at this
      simpa using this (by simpa [dispatch, htr] using h)
    simp [dispatch, htr, hb]
  · rcases pc with cl | cl
    · rcases hcc : create_claim r.proof_of_existence c cl with ⟨res, q⟩
      have hq : q = r.proof_of_existence := by
        have := create_claim_error_state r.proof_of_existence c cl msg
        rw [hcc] at this
        simpa using this (by simpa [dispatch, hcc] using h)
      simp [dispatch, hcc, hq]
    · rcases hrc : revoke_claim r.proof_of_existence c cl with ⟨res, q⟩
      have hq : q = r.proof_of_existence := by
        have := revoke_claim_error_state r.proof_of_existence c cl msg
        rw [hrc] at this
        simpa using this (by simpa [dispatch, hrc] using h)
      simp [dispatch, hrc, hq]

/-! ## Claim C10 -/

/-- C10: a routed `transfer` can only change the balances entries of the
caller and the receiver: the system pallet (block number and all nonces)
and the claims map are untouched, and every third account's stored balance
is unchanged — whether the call succeeds or fails. -/
theorem dispatch_transfer_frame (r : Runtime) (c t : AccountId) (a : Nat) :
    (dispatch r c (.balances (.transfer t a))).2.system = r.system ∧
    (dispatch r c (.balances (.transfer t a))).2.proof_of_existence
        = r.proof_of_existence ∧
    ∀ who : AccountId, who ≠ c → who ≠ t →
      balance (dispatch r c (.balances (.transfer t a))).2.balances who
        = balance r.balances who := by
  rcases htr : transfer r.balances c t a with ⟨res, b⟩
  refine ⟨by simp [dispatch, htr], by simp [dispatch, htr], fun who hwc hwt => ?_⟩
  have hb : balance b who = balance r.balances who := by
    have hfull := transfer_eq r.balances c t a
    rw [htr] at hfull
    split_ifs at hfull
    · rw [show b = r.balances from congrArg Prod.snd hfull]
    · rw [show b = _ from congrArg Prod.snd hfull]
      simp [balance, mapGet_mapInsert, hwc, hwt]
    · rw [show b = r.balances from congrArg Prod.snd hfull]
  simpa [dispatch, htr] using hb

/-- C10 witness: a concrete routed transfer leaves a third account's
balance, the claims map and the system pallet unchanged. -/
theorem dispatch_transfer_frame_witness :
    (dispatch ⟨⟨7, [("dave", 3)]⟩, ⟨[("alice", 100), ("dave", 9)]⟩, ⟨[("h", "dave")]⟩⟩
        "alice" (.balances (.transfer "bob" 30))).2.system = ⟨7, [("dave", 3)]⟩ ∧
    (dispatch ⟨⟨7, [("dave", 3)]⟩, ⟨[("alice", 100), ("dave", 9)]⟩, ⟨[("h", "dave")]⟩⟩
        "alice" (.balances (.transfer "bob" 30))).2.proof_of_existence
      = ⟨[("h", "dave")]⟩ ∧
    balance (dispatch ⟨⟨7, [("dave", 3)]⟩, ⟨[("alice", 100), ("dave", 9)]⟩, ⟨[("h", "dave")]⟩⟩
        "alice" (.balances (.transfer "bob" 30))).2.balances "dave"
      = balance ⟨[("alice", 100), ("dave", 9)]⟩ "dave" :=
  ⟨(dispatch_transfer_frame ⟨⟨7, [("dave", 3)]⟩, ⟨[("alice", 100), ("dave", 9)]⟩,
      ⟨[("h", "dave")]⟩⟩ "alice" "bob" 30).1,
   (dispatch_transfer_frame ⟨⟨7, [("dave", 3)]⟩, ⟨[("alice", 100), ("dave", 9)]⟩,
      ⟨[("h", "dave")]⟩⟩ "alice" "bob" 30).2.1,
   (dispatch_transfer_frame ⟨⟨7, [("dave", 3)]⟩, ⟨[("alice", 100), ("dave", 9)]⟩,
      ⟨[("h", "dave")]⟩⟩ "alice" "bob" 30).2.2 "dave" (by decide) (by decide)⟩

/-! ## Claim C8 -/

/-- C8: a block whose declared height differs from the engine's counter
plus one is rejected: `execute_block` returns the height-mismatch error
and leaves the whole runtime state unchanged — no extrinsic is applied. -/
theorem execute_block_height_mismatch (r : Runtime) (b : Block)
    (h : b.header.block_number ≠ r.system.block_number + 1) :
    execute_block r b
      = (Except.error
          (BlockError.height_mismatch (r.system.block_number + 1) b.header.block_number),
         r) := by
  simp [execute_block, h]

/-- C8 witness: a fresh engine (counter 0) rejects a block declaring
height 5 without touching state. -/
theorem execute_block_height_mismatch_witness :
    execute_block Runtime.new ⟨⟨5⟩, [⟨"alice", .balances (.transfer "bob" 1)⟩]⟩
      = (Except.error (BlockError.height_mismatch 1 5), Runtime.new) :=
  execute_block_height_mismatch Runtime.new
    ⟨⟨5⟩, [⟨"alice", .balances (.transfer "bob" 1)⟩]⟩ (by decide)

/-! ## Claim C1 -/

/-- Splitting the extrinsic loop after a successfully executed prefix. -/
theorem execute_extrinsics_append (bn : Nat) (pre rest : List Extrinsic) :
    ∀ (r r' : Runtime) (i : Nat),
      execute_extrinsics bn r i pre = (Except.ok (), r') →
      execute_extrinsics bn r i (pre ++ rest)
        = execute_extrinsics bn r' (i + pre.length) rest := by
  induction pre with
  | nil =>
    intro r r' i h
    simp [execute_extrinsics] at h
    subst h
    simp
  | cons e pre ih =>
    intro r r' i h
    rw [List.cons_append]
    rw [execute_extrinsics] at h ⊢
    rcases hae : apply_extrinsic r e with ⟨res, r2⟩
    rw [hae] at h
    cases res with
    | error msg => simp at h
    | ok u =>
      cases u
      simp only at h ⊢
      have hlen : i + (e :: pre).length = (i + 1) + pre.length := by
        simp only [List.length_cons]
        omega
      rw [hlen, ih r2 r' (i + 1) h]

/-- C1 (engine modelled from spec §4.5): if the extrinsics before index
`i = pre.length` all dispatch successfully, reaching state `r'`, and the
extrinsic at index `i` fails with reason `msg`, then `execute_block`
returns the failure carrying the block number, the index `i` and `msg`;
the final state keeps every effect of the first `i` extrinsics plus the
nonce increment of the failing extrinsic's caller, and is independent of
the extrinsics after index `i`, which are never executed. -/
theorem execute_block_fail_fast (r : Runtime) (pre : List Extrinsic) (e : Extrinsic)
    (post : List Extrinsic) (r' : Runtime) (msg : String)
    (hpre : execute_extrinsics (r.system.block_number + 1)
        { r with system := inc_block_number r.system } 0 pre = (Except.ok (), r'))
    (hfail : (apply_extrinsic r' e).1 = Except.error msg) :
    execute_block r ⟨⟨r.system.block_number + 1⟩, pre ++ e :: post⟩
      = (Except.error
          (BlockError.extrinsic_failed (r.system.block_number + 1) pre.length msg),
         { r' with system := inc_nonce r'.system e.caller }) := by
  have hst : (apply_extrinsic r' e).2
      = { r' with system := inc_nonce r'.system e.caller } :=
    dispatch_error_frame { r' with system := inc_nonce r'.system e.caller }
      e.caller e.call msg hfail
  have hpair : apply_extrinsic r' e
      = (Except.error msg, { r' with system := inc_nonce r'.system e.caller }) := by
    rw [← hfail, ← hst]
  have hcond : (⟨⟨r.system.block_number + 1⟩, pre ++ e :: post⟩ : Block).header.block_number
      = r.system.block_number + 1 := rfl
  rw [execute_block, if_pos hcond]
  rw [show (⟨⟨r.system.block_number + 1⟩, pre ++ e :: post⟩ : Block).extrinsics
      = pre ++ e :: post from rfl]
  rw [execute_extrinsics_append _ pre (e :: post) _ r' 0 hpre]
  rw [execute_extrinsics, hpair]
  simp

/-- C1 witness: in a block of three extrinsics the second one fails; the
first transfer's effect and both of the failing caller's nonce increments
are retained, the third extrinsic never runs, and the error names block 1,
index 1, and the reason. -/
theorem execute_block_fail_fast_witness :
    execute_block ⟨⟨0, []⟩, ⟨[("alice", 100)]⟩, ⟨[]⟩⟩
        ⟨⟨1⟩, [⟨"alice", .balances (.transfer "bob" 20)⟩,
               ⟨"alice", .balances (.transfer "bob" 200)⟩,
               ⟨"bob", .balances (.transfer "alice" 1)⟩]⟩
      = (Except.error (BlockError.extrinsic_failed 1 1 "Not enough funds."),
         ⟨⟨1, [("alice", 2)]⟩, ⟨[("alice", 80), ("bob", 20)]⟩, ⟨[]⟩⟩) :=
  execute_block_fail_fast ⟨⟨0, []⟩, ⟨[("alice", 100)]⟩, ⟨[]⟩⟩
    [⟨"alice", .balances (.transfer "bob" 20)⟩]
    ⟨"alice", .balances (.transfer "bob" 200)⟩
    [⟨"bob", .balances (.transfer "alice" 1)⟩]
    ⟨⟨1, [("alice", 1)]⟩, ⟨[("alice", 80), ("bob", 20)]⟩, ⟨[]⟩⟩
    "Not enough funds." (by decide) (by decide)

/-! ## Claim C4 -/

theorem count_caller_cons (a : AccountId) (e : Extrinsic) (l : List Extrinsic) :
    count_caller a (e :: l) = (if e.caller = a then 1 else 0) + count_caller a l := by
  by_cases h : e.caller = a
  · simp [count_caller, h]
    omega
  · simp [count_caller, h]

theorem count_caller_append (a : AccountId) (l1 l2 : List Extrinsic) :
    count_caller a (l1 ++ l2) = count_caller a l1 + count_caller a l2 := by
  simp [count_caller, List.filter_append]

/-- `inc_nonce` adds one to the incremented account's stored nonce and
leaves every other account's nonce alone. -/
theorem nonce_of_inc_nonce (s : SystemPallet) (c a : AccountId) :
    nonce_of (inc_nonce s c) a = nonce_of s a + if c = a then 1 else 0 := by
  by_cases h : c = a
  · subst h
    simp [nonce_of, inc_nonce, mapGet_mapInsert]
  · have h' : ¬ a = c := fun hh => h (hh ▸ rfl)
    simp [nonce_of, inc_nonce, mapGet_mapInsert, h, h']

/-- `inc_block_number` does not touch the nonce map. -/
theorem nonce_of_inc_block_number (s : SystemPallet) (a : AccountId) :
    nonce_of (inc_block_number s) a = nonce_of s a := rfl

/-- Across the extrinsic loop, an account's nonce grows by exactly the
number of dispatched extrinsics (successful or failed) it authored. -/
theorem execute_extrinsics_nonce (bn : Nat) (exts : List Extrinsic) :
    ∀ (r : Runtime) (i : Nat) (a : AccountId),
      nonce_of (execute_extrinsics bn r i exts).2.system a
        = nonce_of r.system a + count_caller a (dispatched_in_list r exts) := by
  induction exts with
  | nil =>
    intro r i a
    simp [execute_extrinsics, dispatched_in_list, count_caller]
  | cons e rest ih =>
    intro r i a
    rw [execute_extrinsics, dispatched_in_list]
    rcases hae : apply_extrinsic r e with ⟨res, r2⟩
    have hsys : r2.system = inc_nonce r.system e.caller := by
      have hd := dispatch_system_frame
        { r with system := inc_nonce r.system e.caller } e.caller e.call
      have : (apply_extrinsic r e).2.system
          = inc_nonce r.system e.caller := hd
      rw [hae] at this
      exact this
    cases res with
    | error msg =>
      simp only
      rw [hsys, nonce_of_inc_nonce, count_caller_cons]
      simp [count_caller]
    | ok u =>
      cases u
      simp only
      rw [ih r2 (i + 1) a, hsys, nonce_of_inc_nonce, count_caller_cons]
      omega

/-- Across one block, an account's nonce grows by exactly the number of
dispatched extrinsics it authored (none when the height is rejected). -/
theorem execute_block_nonce (r : Runtime) (b : Block) (a : AccountId) :
    nonce_of (execute_block r b).2.system a
      = nonce_of r.system a + count_caller a (dispatched_in_block r b) := by
  by_cases h : b.header.block_number = r.system.block_number + 1
  · rw [execute_block, if_pos h, dispatched_in_block, if_pos h]
    rw [execute_extrinsics_nonce]
    rfl
  · rw [execute_block, if_neg h, dispatched_in_block, if_neg h]
    simp [count_caller]

/-- Across a whole replay, an account's nonce grows by exactly the number
of dispatched extrinsics it authored. -/
theorem replay_nonce_aux (bs : List Block) :
    ∀ (r : Runtime) (a : AccountId),
      nonce_of (replay r bs).2.system a
        = nonce_of r.system a + count_caller a (dispatched_in_replay r bs) := by
  induction bs with
  | nil =>
    intro r a
    simp [replay, dispatched_in_replay, count_caller]
  | cons b bs ih =>
    intro r a
    rw [replay, dispatched_in_replay]
    rcases heb : execute_block r b with ⟨res, r1⟩
    have hblock : nonce_of r1.system a
        = nonce_of r.system a + count_caller a (dispatched_in_block r b) := by
      have := execute_block_nonce r b a
      rw [heb] at this
      exact this
    cases res with
    | error err =>
      simpa using hblock
    | ok u =>
      cases u
      simp only
      rw [ih r1 a, hblock, count_caller_append]
      omega

/-- When the loop finishes with no failure, every extrinsic was
dispatched. -/
theorem dispatched_in_list_all (bn : Nat) (exts : List Extrinsic) :
    ∀ (r : Runtime) (i : Nat),
      (execute_extrinsics bn r i exts).1 = Except.ok () →
      dispatched_in_list r exts = exts := by
  induction exts with
  | nil =>
    intro r i _
    rfl
  | cons e rest ih =>
    intro r i h
    rw [execute_extrinsics] at h
    rw [dispatched_in_list]
    rcases hae : apply_extrinsic r e with ⟨res, r2⟩
    rw [hae] at h
    cases res with
    | error msg => simp at h
    | ok u =>
      cases u
      simp only at h ⊢
      rw [ih r2 (i + 1) h]

/-- When a block executes successfully, every one of its extrinsics was
dispatched. -/
theorem dispatched_in_block_all (r : Runtime) (b : Block)
    (h : (execute_block r b).1 = Except.ok ()) :
    dispatched_in_block r b = b.extrinsics := by
  by_cases hh : b.header.block_number = r.system.block_number + 1
  · rw [dispatched_in_block, if_pos hh]
    rw [execute_block, if_pos hh] at h
    exact dispatched_in_list_all _ _ _ 0 h
  · rw [execute_block, if_neg hh] at h
    simp at h

theorem all_extrinsics_cons (b : Block) (bs : List Block) :
    all_extrinsics (b :: bs) = b.extrinsics ++ all_extrinsics bs := by
  simp [all_extrinsics]

/-- When a replay succeeds, every extrinsic of every block was
dispatched. -/
theorem dispatched_in_replay_all (bs : List Block) :
    ∀ r : Runtime, (replay r bs).1 = Except.ok () →
      dispatched_in_replay r bs = all_extrinsics bs := by
  induction bs with
  | nil =>
    intro r _
    simp [dispatched_in_replay, all_extrinsics]
  | cons b bs ih =>
    intro r h
    rw [replay] at h
    rw [dispatched_in_replay, all_extrinsics_cons]
    rcases heb : execute_block r b with ⟨res, r1⟩
    rw [heb] at h
    cases res with
    | error err => simp at h
    | ok u =>
      cases u
      simp only at h ⊢
      have hb : dispatched_in_block r b = b.extrinsics :=
        dispatched_in_block_all r b (by rw [heb])
      rw [hb, ih r1 h]

/-- C4 (engine modelled from spec §4.5): after replaying any sequence of
blocks from any state, an account's stored nonce exceeds its initial one
by exactly the number of extrinsics it authored among those the engine
dispatched — counting an extrinsic whose call failed, whose nonce bump is
retained, and never counting extrinsics the engine did not reach.  In
particular, when the whole replay succeeds the count is over every
extrinsic of every block. -/
theorem replay_nonce_count (r : Runtime) (bs : List Block) (a : AccountId) :
    nonce_of (replay r bs).2.system a
      = nonce_of r.system a + count_caller a (dispatched_in_replay r bs) ∧
    ((replay r bs).1 = Except.ok () →
      nonce_of (replay r bs).2.system a
        = nonce_of r.system a + count_caller a (all_extrinsics bs)) :=
  ⟨replay_nonce_aux bs r a,
    fun h => by rw [replay_nonce_aux bs r a, dispatched_in_replay_all bs r h]⟩

/-- C4 witness: replaying three successful blocks from a seeded state —
alice authors four extrinsics and ends with nonce 4. -/
theorem replay_nonce_count_witness :
    (replay ⟨⟨0, []⟩, ⟨[("alice", 100)]⟩, ⟨[]⟩⟩
        [⟨⟨1⟩, [⟨"alice", .balances (.transfer "bob" 20)⟩,
                ⟨"alice", .balances (.transfer "charlie" 20)⟩]⟩,
         ⟨⟨2⟩, [⟨"alice", .proof_of_existence (.create_claim "Hello, world!")⟩]⟩,
         ⟨⟨3⟩, [⟨"alice", .proof_of_existence (.revoke_claim "Hello, world!")⟩,
                ⟨"bob", .proof_of_existence (.create_claim "Hello, world!")⟩]⟩]).1
      = Except.ok () ∧
    nonce_of (replay ⟨⟨0, []⟩, ⟨[("alice", 100)]⟩, ⟨[]⟩⟩
        [⟨⟨1⟩, [⟨"alice", .balances (.transfer "bob" 20)⟩,
                ⟨"alice", .balances (.transfer "charlie" 20)⟩]⟩,
         ⟨⟨2⟩, [⟨"alice", .proof_of_existence (.create_claim "Hello, world!")⟩]⟩,
         ⟨⟨3⟩, [⟨"alice", .proof_of_existence (.revoke_claim "Hello, world!")⟩,
                ⟨"bob", .proof_of_existence (.create_claim "Hello, world!")⟩]⟩]).2.system
        "alice"
      = nonce_of (⟨0, []⟩ : SystemPallet) "alice"
          + count_caller "alice"
              (all_extrinsics
                [⟨⟨1⟩, [⟨"alice", .balances (.transfer "bob" 20)⟩,
                        ⟨"alice", .balances (.transfer "charlie" 20)⟩]⟩,
                 ⟨⟨2⟩, [⟨"alice", .proof_of_existence (.create_claim "Hello, world!")⟩]⟩,
                 ⟨⟨3⟩, [⟨"alice", .proof_of_existence (.revoke_claim "Hello, world!")⟩,
                        ⟨"bob", .proof_of_existence (.create_claim "Hello, world!")⟩]⟩]) :=
  ⟨by decide,
    (replay_nonce_count ⟨⟨0, []⟩, ⟨[("alice", 100)]⟩, ⟨[]⟩⟩
        [⟨⟨1⟩, [⟨"alice", .balances (.transfer "bob" 20)⟩,
                ⟨"alice", .balances (.transfer "charlie" 20)⟩]⟩,
         ⟨⟨2⟩, [⟨"alice", .proof_of_existence (.create_claim "Hello, world!")⟩]⟩,
         ⟨⟨3⟩, [⟨"alice", .proof_of_existence (.revoke_claim "Hello, world!")⟩,
                ⟨"bob", .proof_of_existence (.create_claim "Hello, world!")⟩]⟩]
        "alice").2 (by decide)⟩

end StateMachine
